import Mathlib

/-!
# Surestar LiDAR raw packet layout (`modules/drivers/lidar_surestar/lib/data_type.h`)

A shallow embedding of the constants, enumerations, structures and unions declared in
`data_type.h`, followed by theorems about the wire layout they describe.

Conventions of the embedding:

* `int`, `uint16_t`, `uint32_t` constants are natural numbers; where the C++ type is
  unsigned and a product could wrap, the reduction modulo `2 ^ 32` is written out.
* `float` constants are the exact decimal rationals written in the source
  (`0.01f` is `1 / 100`, `0.004f` is `4 / 1000`, ...): the statements proved here are the
  exact-decimal ones, not statements about IEEE rounding.
* a byte is a natural number below `256`; a byte buffer is a `List Nat`.
-/

namespace Surestar

/-! ## Constants (data_type.h, lines 30-74) -/

/-- Source: `static const int BLOCK_SIZE = 100;`. -/
def BLOCK_SIZE : Nat := 100

/-- Source: `static const int RAW_SCAN_SIZE = 3;`. -/
def RAW_SCAN_SIZE : Nat := 3

/-- Source: `static const int SCANS_PER_BLOCK = 32;`. -/
def SCANS_PER_BLOCK : Nat := 32

/-- Source: `static const int BLOCK_DATA_SIZE = (SCANS_PER_BLOCK * RAW_SCAN_SIZE);`. -/
def BLOCK_DATA_SIZE : Nat := SCANS_PER_BLOCK * RAW_SCAN_SIZE

/-- Source: `static const float ROTATION_RESOLUTION = 0.01f;` (degrees), as an exact decimal. -/
def ROTATION_RESOLUTION : ℚ := 1 / 100

/-- Source: `static const uint16_t ROTATION_MAX_UNITS = 36001;` (the source comments that the
angle range is `[0, 36000]`, so the size is `36001`; the former value `36000` is commented out). -/
def ROTATION_MAX_UNITS : Nat := 36001

/-- Source: `static const float DISTANCE_MAX = 130.0f;` (meters), as an exact decimal. -/
def DISTANCE_MAX : ℚ := 130

/-- Source: `static const float DISTANCE_RESOLUTION = 0.004f;` (meters), as an exact decimal. -/
def DISTANCE_RESOLUTION : ℚ := 4 / 1000

/-- Source: `static const float DISTANCE_MAX_UNITS = (DISTANCE_MAX / DISTANCE_RESOLUTION + 1.0);`. -/
def DISTANCE_MAX_UNITS : ℚ := DISTANCE_MAX / DISTANCE_RESOLUTION + 1

/-- Source: `static const uint16_t UPPER_BANK = 0xeeff;`. -/
def UPPER_BANK : Nat := 0xeeff

/-- Source: `static const uint16_t LOWER_BANK = 0xddff;`. -/
def LOWER_BANK : Nat := 0xddff

/-- Source: `static const int RFANS16_FIRINGS_PER_BLOCK = 2;`. -/
def RFANS16_FIRINGS_PER_BLOCK : Nat := 2

/-- Source: `static const int RFANS16_SCANS_PER_FIRING = 16;`. -/
def RFANS16_SCANS_PER_FIRING : Nat := 16

/-- Source: `static const float RFANS16_BLOCK_TDURATION = 110.592f;`, as an exact decimal. -/
def RFANS16_BLOCK_TDURATION : ℚ := 110592 / 1000

/-- Source: `static const float RFANS16_DSR_TOFFSET = 2.304f;`, as an exact decimal. -/
def RFANS16_DSR_TOFFSET : ℚ := 2304 / 1000

/-- Source: `static const float RFANS16_FIRING_TOFFSET = 55.296f;`, as an exact decimal. -/
def RFANS16_FIRING_TOFFSET : ℚ := 55296 / 1000

/-- Source: `static const int PACKET_SIZE = 1206;`. -/
def PACKET_SIZE : Nat := 1206

/-- Source: `static const int BLOCKS_PER_PACKET = 12;`. -/
def BLOCKS_PER_PACKET : Nat := 12

/-- Source: `static const int PACKET_STATUS_SIZE = 4;`. -/
def PACKET_STATUS_SIZE : Nat := 4

/-- Source: `static const int SCANS_PER_PACKET = (SCANS_PER_BLOCK * BLOCKS_PER_PACKET);`. -/
def SCANS_PER_PACKET : Nat := SCANS_PER_BLOCK * BLOCKS_PER_PACKET

/-- Source: `static constexpr uint32_t RFANS16_SCAN_SIZE = 80;  // ceil 754/10`. -/
def RFANS16_SCAN_SIZE : Nat := 80

/-- Source: `static constexpr uint32_t RFANS16_POINT_SIZE = RFANS16_SCAN_SIZE * SCANS_PER_PACKET;`
(an unsigned 32-bit product, hence reduced modulo `2 ^ 32`). -/
def RFANS16_POINT_SIZE : Nat := (RFANS16_SCAN_SIZE * SCANS_PER_PACKET) % 2 ^ 32

/-- Source: `static constexpr uint32_t HDL64S3D_SCAN_SIZE = 579;  // ceil 5789/10`. -/
def HDL64S3D_SCAN_SIZE : Nat := 579

/-- Source: `static constexpr uint32_t HDL64S3D_POINT_SIZE = HDL64S3D_SCAN_SIZE * SCANS_PER_PACKET;`
(an unsigned 32-bit product, hence reduced modulo `2 ^ 32`). -/
def HDL64S3D_POINT_SIZE : Nat := (HDL64S3D_SCAN_SIZE * SCANS_PER_PACKET) % 2 ^ 32

/-- The ceilings written in the comments beside the scan-size constants (`ceil 754/10`,
`ceil 5789/10`): the least natural number not below `n / d`. -/
def documentedCeil (n d : Nat) : Nat := Nat.ceil ((n : ℚ) / (d : ℚ))

/-! ## The status-type enumeration (data_type.h, lines 99-107) -/

/-- Source: `enum StatusType`. -/
inductive StatusType where
  | HOURS
  | MINUTES
  | SECONDS
  | DATE
  | MONTH
  | YEAR
  | GPS_STATUS
  deriving DecidableEq, Repr

/-- The enumerator values of `enum StatusType`, as written in the source. -/
def StatusType.code : StatusType → Nat
  | .HOURS => 72
  | .MINUTES => 77
  | .SECONDS => 83
  | .DATE => 68
  | .MONTH => 78
  | .YEAR => 89
  | .GPS_STATUS => 71

/-- Reading the one-byte `status_type` field as a `StatusType`: the enumerator whose value is
the byte, when there is one. -/
def StatusType.ofByte (b : Nat) : Option StatusType :=
  if b = 72 then some .HOURS
  else if b = 77 then some .MINUTES
  else if b = 83 then some .SECONDS
  else if b = 68 then some .DATE
  else if b = 78 then some .MONTH
  else if b = 89 then some .YEAR
  else if b = 71 then some .GPS_STATUS
  else none

/-! ## C object layout of the structures (data_type.h, lines 83-87, 118-125, 140-148) -/

/-- A member of a C structure: its size and its alignment, in bytes. -/
structure CField where
  size : Nat
  align : Nat
  deriving DecidableEq, Repr

/-- The least multiple of `a` that is not below `off`. -/
def alignUp (off a : Nat) : Nat := (off + a - 1) / a * a

/-- Byte offsets of the members of a structure laid out in declaration order, each at the
first suitably aligned offset after the previous member; `off` is the first free byte. -/
def layoutFrom : Nat → List CField → List Nat
  | _, [] => []
  | off, f :: fs => alignUp off f.align :: layoutFrom (alignUp off f.align + f.size) fs

/-- The first byte after the last member. -/
def layoutEnd : Nat → List CField → Nat
  | off, [] => off
  | off, f :: fs => layoutEnd (alignUp off f.align + f.size) fs

/-- The alignment of a structure: the largest alignment of a member. -/
def structAlign (fs : List CField) : Nat := fs.foldl (fun a f => max a f.align) 1

/-- The size of a structure: the end of its last member, rounded up to its alignment. -/
def structSize (fs : List CField) : Nat := alignUp (layoutEnd 0 fs) (structAlign fs)

/-- A `uint8_t` / `unsigned char` member. -/
def cUInt8 : CField := ⟨1, 1⟩

/-- A `uint16_t` member. -/
def cUInt16 : CField := ⟨2, 2⟩

/-- An `unsigned int` member, 32 bits wide (the GPS timestamp is a 32-bit field). -/
def cUInt32 : CField := ⟨4, 4⟩

/-- An array of `n` elements of size `size` and alignment `align`. -/
def cArray (n size align : Nat) : CField := ⟨n * size, align⟩

/-- Source: `struct RawBlock { uint16_t laser_block_id; uint16_t rotation;
uint8_t data[BLOCK_DATA_SIZE]; }`. -/
def rawBlockFields : List CField := [cUInt16, cUInt16, cArray BLOCK_DATA_SIZE 1 1]

/-- Source: the anonymous structure of `union UPacket` (the same members as `struct RawPacket`):
`RawBlock blocks[BLOCKS_PER_PACKET]; unsigned int gps_timestamp; unsigned char status_type;
unsigned char status_value;`. -/
def packetFields : List CField :=
  [cArray BLOCKS_PER_PACKET (structSize rawBlockFields) (structAlign rawBlockFields),
   cUInt32, cUInt8, cUInt8]

/-- Offset of `laser_block_id` in a `RawBlock`. -/
def OFF_LASER_BLOCK_ID : Nat := (layoutFrom 0 rawBlockFields).getD 0 0

/-- Offset of `rotation` in a `RawBlock`. -/
def OFF_ROTATION : Nat := (layoutFrom 0 rawBlockFields).getD 1 0

/-- Offset of `data` in a `RawBlock`. -/
def OFF_DATA : Nat := (layoutFrom 0 rawBlockFields).getD 2 0

/-- Offset of `blocks` in the packet. -/
def OFF_BLOCKS : Nat := (layoutFrom 0 packetFields).getD 0 0

/-- Offset of `gps_timestamp` in the packet. -/
def OFF_GPS_TIMESTAMP : Nat := (layoutFrom 0 packetFields).getD 1 0

/-- Offset of `status_type` in the packet. -/
def OFF_STATUS_TYPE : Nat := (layoutFrom 0 packetFields).getD 2 0

/-- Offset of `status_value` in the packet. -/
def OFF_STATUS_VALUE : Nat := (layoutFrom 0 packetFields).getD 3 0

/-! ## The typed view and the byte view of `union UPacket` -/

/-- Source: `struct RawBlock`; `laser_block_id` and `rotation` are `uint16_t`, `data` is
`uint8_t[BLOCK_DATA_SIZE]`. -/
structure RawBlock where
  laser_block_id : Nat
  rotation : Nat
  data : List Nat
  deriving DecidableEq, Repr

/-- Source: `struct RawPacket` and the anonymous structure of `union UPacket`; `blocks` is
`RawBlock[BLOCKS_PER_PACKET]`, `gps_timestamp` is `unsigned int`, the status members are
`unsigned char`. -/
structure RawPacket where
  blocks : List RawBlock
  gps_timestamp : Nat
  status_type : Nat
  status_value : Nat
  deriving DecidableEq, Repr

/-- The values of a `RawBlock` are within the ranges of the C types of its members. -/
def RawBlock.WF (b : RawBlock) : Prop :=
  b.laser_block_id < 2 ^ 16 ∧ b.rotation < 2 ^ 16 ∧
  b.data.length = BLOCK_DATA_SIZE ∧ ∀ x ∈ b.data, x < 256

instance (b : RawBlock) : Decidable b.WF := by
  unfold RawBlock.WF
  infer_instance

/-- The values of a `RawPacket` are within the ranges of the C types of its members. -/
def RawPacket.WF (p : RawPacket) : Prop :=
  p.blocks.length = BLOCKS_PER_PACKET ∧ (∀ b ∈ p.blocks, b.WF) ∧
  p.gps_timestamp < 2 ^ 32 ∧ p.status_type < 256 ∧ p.status_value < 256

instance (p : RawPacket) : Decidable p.WF := by
  unfold RawPacket.WF
  infer_instance

/-- The byte at index `i` of a buffer (`0` past its end). -/
def byteAt (buf : List Nat) (i : Nat) : Nat := buf.getD i 0

/-- Modelled from the spec: the byte order of the host on which the union is read, which the
header does not fix; the spec states that all multi-byte integer fields are little-endian.
The 16-bit value of the two bytes at offset `off`, least significant byte first. -/
def readU16 (buf : List Nat) (off : Nat) : Nat :=
  byteAt buf off + 256 * byteAt buf (off + 1)

/-- Modelled from the spec: little-endian byte order (see `readU16`). The 32-bit value of the
four bytes at offset `off`, least significant byte first. -/
def readU32 (buf : List Nat) (off : Nat) : Nat :=
  byteAt buf off + 256 * byteAt buf (off + 1) + 65536 * byteAt buf (off + 2) +
    16777216 * byteAt buf (off + 3)

/-- Modelled from the spec: little-endian byte order (see `readU16`). The two bytes of a
16-bit value, least significant byte first. -/
def writeU16 (v : Nat) : List Nat := [v % 256, v / 256 % 256]

/-- Modelled from the spec: little-endian byte order (see `readU16`). The four bytes of a
32-bit value, least significant byte first. -/
def writeU32 (v : Nat) : List Nat :=
  [v % 256, v / 256 % 256, v / 65536 % 256, v / 16777216 % 256]

/-- Source: `union RawDistance { uint16_t raw_distance; uint8_t bytes[2]; }`: the member
`raw_distance` read over `bytes[0]`, `bytes[1]`. -/
def RawDistance.raw_distance (bytes : List Nat) : Nat := readU16 bytes 0

/-- Source: `union RawDistance`: the member `bytes` read over `raw_distance`. -/
def RawDistance.bytes (raw_distance : Nat) : List Nat := writeU16 raw_distance

/-- The typed view of a block whose first byte is the first byte of `buf`: every member is read
at its offset in `struct RawBlock`. -/
def RawBlock.ofBytes (buf : List Nat) : RawBlock where
  laser_block_id := readU16 buf OFF_LASER_BLOCK_ID
  rotation := readU16 buf OFF_ROTATION
  data := (buf.drop OFF_DATA).take BLOCK_DATA_SIZE

/-- The bytes of a block: its members in declaration order (they are contiguous, see
`layoutFrom 0 rawBlockFields`). -/
def RawBlock.toBytes (b : RawBlock) : List Nat :=
  writeU16 b.laser_block_id ++ writeU16 b.rotation ++ b.data

/-- The typed view `blocks[b]` of `union UPacket` over the byte view `data`. -/
def UPacket.blockAt (data : List Nat) (b : Nat) : RawBlock :=
  RawBlock.ofBytes (data.drop (OFF_BLOCKS + b * structSize rawBlockFields))

/-- The typed view of `union UPacket` (its anonymous structure) over the byte view `data`. -/
def UPacket.fields (data : List Nat) : RawPacket where
  blocks := (List.range BLOCKS_PER_PACKET).map (UPacket.blockAt data)
  gps_timestamp := readU32 data OFF_GPS_TIMESTAMP
  status_type := byteAt data OFF_STATUS_TYPE
  status_value := byteAt data OFF_STATUS_VALUE

/-- The byte view `data` of `union UPacket` over the typed view: the members in declaration
order (they are contiguous, see `layoutFrom 0 packetFields`). -/
def UPacket.data (p : RawPacket) : List Nat :=
  (p.blocks.map RawBlock.toBytes).flatten ++ writeU32 p.gps_timestamp ++
    [p.status_type, p.status_value]

/-! ## Channel samples -/

/-- One channel sample: a 16-bit raw distance and an 8-bit raw intensity. -/
structure ChannelSample where
  raw_distance : Nat
  raw_intensity : Nat
  deriving DecidableEq, Repr

/-- Modelled from the spec: the Block Decoder (section 4.2), which is not in `data_type.h`:
"read 32 consecutive 3-byte groups: first 2 bytes = raw distance (16-bit little-endian), 3rd
byte = raw intensity". Index in `data` of byte `k` of the group of channel `i`. -/
def sampleByteIndex (i k : Nat) : Nat := RAW_SCAN_SIZE * i + k

/-- Modelled from the spec: the Block Decoder (section 4.2), see `sampleByteIndex`. The sample
of channel `i` of a block; the distance bytes are read through `union RawDistance`. -/
def RawBlock.sample (blk : RawBlock) (i : Nat) : ChannelSample where
  raw_distance :=
    RawDistance.raw_distance
      [byteAt blk.data (sampleByteIndex i 0), byteAt blk.data (sampleByteIndex i 1)]
  raw_intensity := byteAt blk.data (sampleByteIndex i 2)

/-- Modelled from the spec: the Block Decoder (section 4.2), see `sampleByteIndex`. The ordered
samples of a block: one for every whole `RAW_SCAN_SIZE`-byte group of its data. -/
def RawBlock.samples (blk : RawBlock) : List ChannelSample :=
  (List.range (blk.data.length / RAW_SCAN_SIZE)).map blk.sample

/-- Modelled from the spec: the Packet Decoder (section 4.3), which is not in `data_type.h`:
"iterate the 12 blocks in wire order"; the flat sequence of the samples of all blocks. -/
def RawPacket.samples (p : RawPacket) : List ChannelSample :=
  (p.blocks.map RawBlock.samples).flatten

/-- Offset in the packet of `blocks[b].data[j]`, from the layout of the structures. -/
def dataOffset (b j : Nat) : Nat :=
  OFF_BLOCKS + b * structSize rawBlockFields + OFF_DATA + j

/-- Offset in the packet of byte `k` of the sample of channel `i` of block `b`. -/
def sampleOffset (b i k : Nat) : Nat := dataOffset b (sampleByteIndex i k)

/-! ## Concrete values used to instantiate the theorems -/

/-- A block of the upper bank at rotation 359.99 degrees, every data byte `7`. -/
def sampleBlock : RawBlock := ⟨UPPER_BANK, 35999, List.replicate BLOCK_DATA_SIZE 7⟩

/-- A packet of twelve `sampleBlock`s with a timestamp and an `HOURS` status. -/
def samplePacket : RawPacket :=
  ⟨List.replicate BLOCKS_PER_PACKET sampleBlock, 305419896, 72, 13⟩

/-- A buffer of `PACKET_SIZE` bytes, every byte `0xAB`. -/
def sampleBuffer : List Nat := List.replicate PACKET_SIZE 171

/-! ## Layout values and buffer lemmas -/

/-- The member offsets and the size of `struct RawBlock`, evaluated. -/
theorem rawBlock_layout_values :
    OFF_LASER_BLOCK_ID = 0 ∧ OFF_ROTATION = 2 ∧ OFF_DATA = 4 ∧
    structSize rawBlockFields = 100 ∧ BLOCK_DATA_SIZE = 96 := by
  decide

/-- The 16-bit little-endian value of a buffer that starts with the bytes `a`, `b`. -/
theorem readU16_cons_cons (a b : Nat) (l : List Nat) :
    readU16 (a :: b :: l) 0 = a + 256 * b := rfl

/-- Reading past a dropped prefix is reading at the shifted index. -/
theorem byteAt_drop (l : List Nat) (n j : Nat) : byteAt (l.drop n) j = byteAt l (n + j) := by
  simp [byteAt, List.getD_eq_getElem?_getD, List.getElem?_drop]

/-- Reading inside a kept prefix is reading the buffer. -/
theorem byteAt_take (l : List Nat) (m j : Nat) (h : j < m) :
    byteAt (l.take m) j = byteAt l j := by
  simp [byteAt, List.getD_eq_getElem?_getD, List.getElem?_take, h]

/-- A block with `BLOCK_DATA_SIZE` data bytes has `SCANS_PER_BLOCK` samples. -/
theorem RawBlock.samples_length (b : RawBlock) (h : b.data.length = BLOCK_DATA_SIZE) :
    b.samples.length = SCANS_PER_BLOCK := by
  unfold RawBlock.samples
  rw [List.length_map, List.length_range, h]
  decide

/-- The samples of a list of full blocks: `SCANS_PER_BLOCK` for each block. -/
theorem samples_flatten_length (bs : List RawBlock)
    (h : ∀ b ∈ bs, b.data.length = BLOCK_DATA_SIZE) :
    (bs.map RawBlock.samples).flatten.length = SCANS_PER_BLOCK * bs.length := by
  induction bs with
  | nil => rfl
  | cons b bs ih =>
    have hb : b.samples.length = SCANS_PER_BLOCK :=
      RawBlock.samples_length b (h b (List.mem_cons_self b bs))
    have hbs := ih (fun x hx => h x (List.mem_cons_of_mem b hx))
    simp only [List.map_cons, List.flatten_cons, List.length_append, List.length_cons, hb, hbs]
    ring

/-- The member offsets of the packet structure, evaluated. -/
theorem packet_layout_values :
    OFF_BLOCKS = 0 ∧ OFF_GPS_TIMESTAMP = 1200 ∧ OFF_STATUS_TYPE = 1204 ∧
    OFF_STATUS_VALUE = 1205 := by
  decide

/-- The data of the typed view of block `b` of a buffer of `PACKET_SIZE` bytes is
`BLOCK_DATA_SIZE` bytes long. -/
theorem blockAt_data_length (data : List Nat) (hlen : data.length = PACKET_SIZE) (b : Nat)
    (hb : b < BLOCKS_PER_PACKET) : (UPacket.blockAt data b).data.length = BLOCK_DATA_SIZE := by
  obtain ⟨_, _, h4, h100, h96⟩ := rawBlock_layout_values
  have h0 : OFF_BLOCKS = 0 := packet_layout_values.1
  unfold UPacket.blockAt RawBlock.ofBytes
  simp only [List.length_take, List.length_drop, hlen, h4, h100, h96, h0]
  unfold PACKET_SIZE
  unfold BLOCKS_PER_PACKET at hb
  omega

/-- The anonymous structure of `UPacket` is padded to its 4-byte alignment: two bytes of tail
padding follow `status_value`, they belong to no member and lie past `data[PACKET_SIZE - 1]`. -/
theorem packet_struct_tail_padding :
    structAlign packetFields = 4 ∧ layoutEnd 0 packetFields = 1206 ∧
    structSize packetFields = 1208 := by
  decide

/-! ## Theorems about the packet layout and the constants -/

/-- C1: the standard packet is `PACKET_SIZE = 1206` bytes, and that size is accounted for by
the members of the typed view of `UPacket`: `PACKET_SIZE = BLOCKS_PER_PACKET * BLOCK_SIZE + 4 +
1 + 1` with `gps_timestamp` being `PACKET_STATUS_SIZE` bytes wide; laid out in declaration
order the members start at offsets 0 (blocks, through 1199), 1200 (gps_timestamp, through
1203), 1204 (status_type) and 1205 (status_value), each member starts where the previous one
ends (no gap), and the last member ends at `PACKET_SIZE`, so no member byte lies outside
`data[0 .. PACKET_SIZE - 1]`. -/
theorem packet_size_accounted_for_by_fields :
    PACKET_SIZE = 1206 ∧
    PACKET_SIZE = BLOCKS_PER_PACKET * BLOCK_SIZE + 4 + 1 + 1 ∧
    cUInt32.size = PACKET_STATUS_SIZE ∧
    structSize rawBlockFields = BLOCK_SIZE ∧
    layoutFrom 0 packetFields = [0, 1200, 1204, 1205] ∧
    packetFields.map CField.size = [BLOCKS_PER_PACKET * BLOCK_SIZE, PACKET_STATUS_SIZE, 1, 1] ∧
    OFF_BLOCKS = 0 ∧
    OFF_BLOCKS + BLOCKS_PER_PACKET * BLOCK_SIZE = OFF_GPS_TIMESTAMP ∧
    OFF_GPS_TIMESTAMP + PACKET_STATUS_SIZE = OFF_STATUS_TYPE ∧
    OFF_STATUS_TYPE + 1 = OFF_STATUS_VALUE ∧
    OFF_STATUS_VALUE + 1 = PACKET_SIZE ∧
    layoutEnd 0 packetFields = PACKET_SIZE := by
  decide

/-- C7: the seven `StatusType` tags have pairwise distinct codes, each code fits in the one-byte
`status_type` field, reading the byte that encodes a tag yields that tag, a byte is read as a
tag only when it is that tag's code, and every byte value that is not one of the seven
codes is read as no tag. -/
theorem status_type_decodable :
    (∀ t u : StatusType, t.code = u.code → t = u) ∧
    (∀ t : StatusType, t.code < 256) ∧
    (∀ t : StatusType, StatusType.ofByte t.code = some t) ∧
    (∀ (b : Nat) (t : StatusType), StatusType.ofByte b = some t → t.code = b) ∧
    (∀ b : Nat, (∀ t : StatusType, t.code ≠ b) → StatusType.ofByte b = none) := by
  refine ⟨?_, ?_, ?_, ?_, ?_⟩
  · intro t u h
    cases t <;> cases u <;> first | rfl | (exact absurd h (by decide))
  · intro t
    cases t <;> decide
  · intro t
    cases t <;> rfl
  · intro b t h
    unfold StatusType.ofByte at h
    split_ifs at h with h1 h2 h3 h4 h5 h6 h7
    all_goals (injection h with h; subst h; subst_vars; rfl)
  · intro b h
    have h1 := h .HOURS
    have h2 := h .MINUTES
    have h3 := h .SECONDS
    have h4 := h .DATE
    have h5 := h .MONTH
    have h6 := h .YEAR
    have h7 := h .GPS_STATUS
    simp only [StatusType.code] at h1 h2 h3 h4 h5 h6 h7
    unfold StatusType.ofByte
    simp [Ne.symm h1, Ne.symm h2, Ne.symm h3, Ne.symm h4, Ne.symm h5, Ne.symm h6, Ne.symm h7]

/-- C7, instance: the byte `0` is the code of no tag and is read as no tag, while the byte `72`
is read as `HOURS`. -/
theorem status_type_decodable_witness :
    (∀ t : StatusType, t.code ≠ 0) ∧ StatusType.ofByte 0 = none ∧
    StatusType.ofByte 72 = some StatusType.HOURS :=
  ⟨by intro t; cases t <;> decide,
   status_type_decodable.2.2.2.2 0 (by intro t; cases t <;> decide),
   status_type_decodable.2.2.1 StatusType.HOURS⟩

/-- C9 (evaluation of the source): `RFANS16_SCAN_SIZE` is `80` while the ceiling documented
beside it, `ceil 754/10`, is `76`; `HDL64S3D_SCAN_SIZE` equals its documented ceiling
`ceil 5789/10`; both point-size constants are the scan sizes times `SCANS_PER_PACKET`, the
32-bit products not wrapping. -/
theorem rfans16_scan_size_is_not_documented_ceiling :
    RFANS16_SCAN_SIZE = 80 ∧ documentedCeil 754 10 = 76 ∧
    RFANS16_SCAN_SIZE ≠ documentedCeil 754 10 ∧
    HDL64S3D_SCAN_SIZE = documentedCeil 5789 10 ∧
    RFANS16_POINT_SIZE = RFANS16_SCAN_SIZE * SCANS_PER_PACKET ∧
    HDL64S3D_POINT_SIZE = HDL64S3D_SCAN_SIZE * SCANS_PER_PACKET ∧
    RFANS16_SCAN_SIZE * SCANS_PER_PACKET < 2 ^ 32 ∧
    HDL64S3D_SCAN_SIZE * SCANS_PER_PACKET < 2 ^ 32 := by
  have h1 : documentedCeil 754 10 = 76 := by
    unfold documentedCeil
    rw [Nat.ceil_eq_iff (by norm_num)]
    constructor <;> norm_num
  have h2 : documentedCeil 5789 10 = 579 := by
    unfold documentedCeil
    rw [Nat.ceil_eq_iff (by norm_num)]
    constructor <;> norm_num
  refine ⟨rfl, h1, ?_, ?_, by decide, by decide, by decide, by decide⟩
  · rw [h1]; decide
  · rw [h2]; rfl

/-- C10: the RFANS16 firing constants agree with the block layout and with each other:
firings per block times scans per firing is `SCANS_PER_BLOCK`; the block duration is the
firings per block times the firing offset; every per-laser offset `i * RFANS16_DSR_TOFFSET`
with `i < RFANS16_SCANS_PER_FIRING` is below the firing offset; the time offset
`f * RFANS16_FIRING_TOFFSET + i * RFANS16_DSR_TOFFSET` is strictly increasing in `(f, i)` in
lexicographic order and stays below the block duration. -/
theorem rfans16_firing_constants_consistent :
    RFANS16_FIRINGS_PER_BLOCK * RFANS16_SCANS_PER_FIRING = SCANS_PER_BLOCK ∧
    RFANS16_BLOCK_TDURATION = (RFANS16_FIRINGS_PER_BLOCK : ℚ) * RFANS16_FIRING_TOFFSET ∧
    (∀ i : Nat, i < RFANS16_SCANS_PER_FIRING →
      (i : ℚ) * RFANS16_DSR_TOFFSET < RFANS16_FIRING_TOFFSET) ∧
    (∀ f i g j : Nat, i < RFANS16_SCANS_PER_FIRING → j < RFANS16_SCANS_PER_FIRING →
      f < RFANS16_FIRINGS_PER_BLOCK → g < RFANS16_FIRINGS_PER_BLOCK →
      (f < g ∨ (f = g ∧ i < j)) → (f : ℚ) * RFANS16_FIRING_TOFFSET + (i : ℚ) * RFANS16_DSR_TOFFSET <
        (g : ℚ) * RFANS16_FIRING_TOFFSET + (j : ℚ) * RFANS16_DSR_TOFFSET) ∧
    (∀ f i : Nat, f < RFANS16_FIRINGS_PER_BLOCK → i < RFANS16_SCANS_PER_FIRING →
      (f : ℚ) * RFANS16_FIRING_TOFFSET + (i : ℚ) * RFANS16_DSR_TOFFSET <
        RFANS16_BLOCK_TDURATION) := by
  refine ⟨by decide, ?_, ?_, ?_, ?_⟩
  · norm_num [RFANS16_BLOCK_TDURATION, RFANS16_FIRINGS_PER_BLOCK, RFANS16_FIRING_TOFFSET]
  · intro i hi
    unfold RFANS16_SCANS_PER_FIRING at hi
    have hq : (i : ℚ) ≤ 15 := by exact_mod_cast Nat.le_of_lt_succ hi
    unfold RFANS16_DSR_TOFFSET RFANS16_FIRING_TOFFSET
    linarith
  · intro f i g j hi hj hf hg h
    unfold RFANS16_SCANS_PER_FIRING at hi hj
    unfold RFANS16_FIRINGS_PER_BLOCK at hf hg
    have hi0 : (0 : ℚ) ≤ (i : ℚ) := Nat.cast_nonneg i
    have hj0 : (0 : ℚ) ≤ (j : ℚ) := Nat.cast_nonneg j
    have hiq : (i : ℚ) ≤ 15 := by exact_mod_cast Nat.le_of_lt_succ hi
    unfold RFANS16_DSR_TOFFSET RFANS16_FIRING_TOFFSET
    rcases h with h | ⟨h, hij⟩
    · have hfg : (f : ℚ) + 1 ≤ (g : ℚ) := by exact_mod_cast h
      linarith
    · subst h
      have hq : (i : ℚ) < (j : ℚ) := by exact_mod_cast hij
      linarith
  · intro f i hf hi
    unfold RFANS16_SCANS_PER_FIRING at hi
    unfold RFANS16_FIRINGS_PER_BLOCK at hf
    have hfq : (f : ℚ) ≤ 1 := by exact_mod_cast Nat.le_of_lt_succ hf
    have hiq : (i : ℚ) ≤ 15 := by exact_mod_cast Nat.le_of_lt_succ hi
    unfold RFANS16_DSR_TOFFSET RFANS16_FIRING_TOFFSET RFANS16_BLOCK_TDURATION
    linarith

/-- C10, instance: the last laser of the first firing fires before the first laser of the
second firing, and the last laser of the last firing fires before the block ends. -/
theorem rfans16_firing_constants_consistent_witness :
    ((0 : Nat) : ℚ) * RFANS16_FIRING_TOFFSET + ((15 : Nat) : ℚ) * RFANS16_DSR_TOFFSET <
      ((1 : Nat) : ℚ) * RFANS16_FIRING_TOFFSET + ((0 : Nat) : ℚ) * RFANS16_DSR_TOFFSET ∧
    ((1 : Nat) : ℚ) * RFANS16_FIRING_TOFFSET + ((15 : Nat) : ℚ) * RFANS16_DSR_TOFFSET <
      RFANS16_BLOCK_TDURATION :=
  ⟨rfans16_firing_constants_consistent.2.2.2.1 0 15 1 0 (by decide) (by decide) (by decide)
      (by decide) (Or.inl (by decide)),
   rfans16_firing_constants_consistent.2.2.2.2 1 15 (by decide) (by decide)⟩

/-- C5 (as stated, refuted): the raw rotation `36000` is a 16-bit value, is at most `36000`
and below `ROTATION_MAX_UNITS`, yet its azimuth `36000 * ROTATION_RESOLUTION` is exactly `360`
degrees, which is not in the half-open interval `[0, 360)`. -/
theorem azimuth_of_36000_not_below_360 :
    36000 < 2 ^ 16 ∧ 36000 ≤ 36000 ∧ 36000 < ROTATION_MAX_UNITS ∧
    ((36000 : Nat) : ℚ) * ROTATION_RESOLUTION = 360 ∧
    ¬ (0 ≤ ((36000 : Nat) : ℚ) * ROTATION_RESOLUTION ∧
       ((36000 : Nat) : ℚ) * ROTATION_RESOLUTION < 360) := by
  have h : ((36000 : Nat) : ℚ) * ROTATION_RESOLUTION = 360 := by
    norm_num [ROTATION_RESOLUTION]
  refine ⟨by decide, by decide, by decide, h, ?_⟩
  rw [h]
  norm_num

/-- C5 (amended): for every raw rotation `r` with `r ≤ 36000`, equivalently
`r < ROTATION_MAX_UNITS`, which is then a 16-bit value, the azimuth `r * ROTATION_RESOLUTION`,
taken exactly as `r / 100` degrees, lies in the closed interval `[0, 360]`; it lies in
`[0, 360)` exactly when `r < 36000`. -/
theorem azimuth_in_closed_range (r : Nat) :
    (r ≤ 36000 ↔ r < ROTATION_MAX_UNITS) ∧
    (r ≤ 36000 →
      r < 2 ^ 16 ∧
      (r : ℚ) * ROTATION_RESOLUTION = (r : ℚ) / 100 ∧
      0 ≤ (r : ℚ) * ROTATION_RESOLUTION ∧ (r : ℚ) * ROTATION_RESOLUTION ≤ 360 ∧
      ((r : ℚ) * ROTATION_RESOLUTION < 360 ↔ r < 36000)) := by
  refine ⟨by unfold ROTATION_MAX_UNITS; omega, ?_⟩
  intro hle
  have hq : (r : ℚ) ≤ 36000 := by exact_mod_cast hle
  have h0 : (0 : ℚ) ≤ (r : ℚ) := Nat.cast_nonneg r
  have hval : (r : ℚ) * ROTATION_RESOLUTION = (r : ℚ) / 100 := by
    unfold ROTATION_RESOLUTION
    ring
  refine ⟨by omega, hval, ?_, ?_, ?_⟩
  · rw [hval]; positivity
  · rw [hval]; linarith
  · rw [hval]
    constructor
    · intro hlt
      have : (r : ℚ) < 36000 := by linarith
      exact_mod_cast this
    · intro hlt
      have : (r : ℚ) < 36000 := by exact_mod_cast hlt
      linarith

/-- C5 (amended), instance: the largest valid raw rotation `36000` has an azimuth in
`[0, 360]`, and the raw rotation `35999` has an azimuth below `360`. -/
theorem azimuth_in_closed_range_witness :
    (36000 : Nat) ≤ 36000 ∧ 0 ≤ ((36000 : Nat) : ℚ) * ROTATION_RESOLUTION ∧
    ((36000 : Nat) : ℚ) * ROTATION_RESOLUTION ≤ 360 ∧
    ((35999 : Nat) : ℚ) * ROTATION_RESOLUTION < 360 :=
  ⟨le_refl _, ((azimuth_in_closed_range 36000).2 (le_refl _)).2.2.1,
   ((azimuth_in_closed_range 36000).2 (le_refl _)).2.2.2.1,
   ((azimuth_in_closed_range 35999).2 (by decide)).2.2.2.2.mpr (by decide)⟩

/-- C6: with the constants taken as exact decimals, `DISTANCE_MAX_UNITS` is `32501`, and for
every 16-bit raw distance `d` the converted distance `min (d * DISTANCE_RESOLUTION)
DISTANCE_MAX` never exceeds `DISTANCE_MAX` and equals `d * DISTANCE_RESOLUTION` if and only
if `d < DISTANCE_MAX_UNITS`. -/
theorem distance_max_units_is_clamp_boundary :
    DISTANCE_MAX_UNITS = 32501 ∧
    ∀ d : Nat, d < 2 ^ 16 →
      min ((d : ℚ) * DISTANCE_RESOLUTION) DISTANCE_MAX ≤ DISTANCE_MAX ∧
      (min ((d : ℚ) * DISTANCE_RESOLUTION) DISTANCE_MAX = (d : ℚ) * DISTANCE_RESOLUTION ↔
        (d : ℚ) < DISTANCE_MAX_UNITS) := by
  have hU : DISTANCE_MAX_UNITS = 32501 := by
    norm_num [DISTANCE_MAX_UNITS, DISTANCE_MAX, DISTANCE_RESOLUTION]
  refine ⟨hU, ?_⟩
  intro d _
  refine ⟨min_le_right _ _, ?_⟩
  rw [hU, min_eq_left_iff]
  unfold DISTANCE_RESOLUTION DISTANCE_MAX
  constructor
  · intro hle
    have h1 : (d : ℚ) ≤ 32500 := by linarith
    linarith
  · intro hlt
    have h1 : d < 32501 := by exact_mod_cast hlt
    have h2 : (d : ℚ) ≤ 32500 := by exact_mod_cast Nat.le_of_lt_succ h1
    linarith

/-- C6, instance: the raw distance `32500` is below `DISTANCE_MAX_UNITS` and converts to
`32500 * DISTANCE_RESOLUTION` unaltered by the clamp, while `32501` is altered by it. -/
theorem distance_max_units_is_clamp_boundary_witness :
    (32500 : Nat) < 2 ^ 16 ∧
    (min (((32500 : Nat) : ℚ) * DISTANCE_RESOLUTION) DISTANCE_MAX =
      ((32500 : Nat) : ℚ) * DISTANCE_RESOLUTION ↔
      ((32500 : Nat) : ℚ) < DISTANCE_MAX_UNITS) ∧
    ¬ (min (((32501 : Nat) : ℚ) * DISTANCE_RESOLUTION) DISTANCE_MAX =
      ((32501 : Nat) : ℚ) * DISTANCE_RESOLUTION) :=
  ⟨by decide, (distance_max_units_is_clamp_boundary.2 32500 (by decide)).2,
   fun h => absurd ((distance_max_units_is_clamp_boundary.2 32501 (by decide)).2.mp h)
     (by rw [distance_max_units_is_clamp_boundary.1]; norm_num)⟩

/-- C4 (as stated, refuted): when the two bank-identifier bytes of a block are `0xEE` followed
by `0xFF`, the little-endian value read into `laser_block_id` is `0xFFEE`, not `UPPER_BANK`;
when they are `0xDD` followed by `0xFF` it is `0xFFDD`, not `LOWER_BANK`. -/
theorem bank_bytes_ee_ff_do_not_read_as_upper_bank :
    (RawBlock.ofBytes (0xEE :: 0xFF :: List.replicate 98 0)).laser_block_id = 0xFFEE ∧
    (RawBlock.ofBytes (0xEE :: 0xFF :: List.replicate 98 0)).laser_block_id ≠ UPPER_BANK ∧
    (RawBlock.ofBytes (0xDD :: 0xFF :: List.replicate 98 0)).laser_block_id = 0xFFDD ∧
    (RawBlock.ofBytes (0xDD :: 0xFF :: List.replicate 98 0)).laser_block_id ≠ LOWER_BANK := by
  simp [RawBlock.ofBytes, readU16, byteAt, rawBlock_layout_values.1, UPPER_BANK, LOWER_BANK]

/-- C4 (amended): when the two bank-identifier bytes of a block are `0xFF` followed by `0xEE`
in transmission order, the 16-bit little-endian value read into `laser_block_id` equals
`UPPER_BANK`, and when they are `0xFF` followed by `0xDD` it equals `LOWER_BANK`; the two
sentinels are distinct 16-bit values. -/
theorem bank_sentinels_low_byte_first (rest : List Nat) :
    (RawBlock.ofBytes (0xFF :: 0xEE :: rest)).laser_block_id = UPPER_BANK ∧
    (RawBlock.ofBytes (0xFF :: 0xDD :: rest)).laser_block_id = LOWER_BANK ∧
    UPPER_BANK ≠ LOWER_BANK ∧ UPPER_BANK < 2 ^ 16 ∧ LOWER_BANK < 2 ^ 16 := by
  have h0 : OFF_LASER_BLOCK_ID = 0 := rawBlock_layout_values.1
  refine ⟨?_, ?_, ?_, ?_, ?_⟩
  · show readU16 _ OFF_LASER_BLOCK_ID = _
    rw [h0, readU16_cons_cons]
    rfl
  · show readU16 _ OFF_LASER_BLOCK_ID = _
    rw [h0, readU16_cons_cons]
    rfl
  · unfold UPPER_BANK LOWER_BANK; norm_num
  · unfold UPPER_BANK; norm_num
  · unfold LOWER_BANK; norm_num

/-- C2: for every standard packet (a `RawPacket` of `BLOCKS_PER_PACKET` blocks, each holding
`BLOCK_DATA_SIZE` data bytes split into `RAW_SCAN_SIZE`-byte groups), the flat sequence of
channel samples obtained by visiting the blocks in order has exactly
`SCANS_PER_PACKET = 12 * 32 = 384` elements, each block contributing exactly
`SCANS_PER_BLOCK = 32` of them. -/
theorem samples_per_packet (p : RawPacket)
    (hblocks : p.blocks.length = BLOCKS_PER_PACKET)
    (hdata : ∀ b ∈ p.blocks, b.data.length = BLOCK_DATA_SIZE) :
    p.samples.length = SCANS_PER_PACKET ∧
    SCANS_PER_PACKET = 12 * 32 ∧ SCANS_PER_PACKET = 384 ∧
    (∀ b ∈ p.blocks, b.samples.length = SCANS_PER_BLOCK) ∧ SCANS_PER_BLOCK = 32 ∧
    (∀ data : List Nat, data.length = PACKET_SIZE →
      (UPacket.fields data).samples.length = SCANS_PER_PACKET) := by
  refine ⟨?_, by decide, by decide, fun b hb => RawBlock.samples_length b (hdata b hb), rfl, ?_⟩
  · unfold RawPacket.samples
    rw [samples_flatten_length p.blocks hdata, hblocks]
    decide
  · intro data hlen
    have hd : ∀ b ∈ (UPacket.fields data).blocks, b.data.length = BLOCK_DATA_SIZE := by
      intro blk hblk
      have hmem : blk ∈ (List.range BLOCKS_PER_PACKET).map (UPacket.blockAt data) := hblk
      obtain ⟨b, hbr, rfl⟩ := List.mem_map.mp hmem
      exact blockAt_data_length data hlen b (List.mem_range.mp hbr)
    have hn : (UPacket.fields data).blocks.length = BLOCKS_PER_PACKET := by
      show ((List.range BLOCKS_PER_PACKET).map (UPacket.blockAt data)).length = _
      rw [List.length_map, List.length_range]
    unfold RawPacket.samples
    rw [samples_flatten_length _ hd, hn]
    decide

/-- C2, instance: the packet of twelve sample blocks is a standard packet and has `384`
channel samples. -/
theorem samples_per_packet_witness :
    samplePacket.blocks.length = BLOCKS_PER_PACKET ∧
    (∀ b ∈ samplePacket.blocks, b.data.length = BLOCK_DATA_SIZE) ∧
    samplePacket.samples.length = 384 := by
  have h1 : samplePacket.blocks.length = BLOCKS_PER_PACKET := by
    simp [samplePacket]
  have h2 : ∀ b ∈ samplePacket.blocks, b.data.length = BLOCK_DATA_SIZE := by
    intro b hb
    have : b = sampleBlock := by
      simpa [samplePacket] using (List.mem_replicate.mp hb).2
    subst this
    simp [sampleBlock]
  refine ⟨h1, h2, ?_⟩
  have h := samples_per_packet samplePacket h1 h2
  rw [h.1]
  exact h.2.2.1

/-- C8: a block is `BLOCK_SIZE = 2 + 2 + BLOCK_DATA_SIZE` bytes with
`BLOCK_DATA_SIZE = SCANS_PER_BLOCK * RAW_SCAN_SIZE = 96`; for every block index
`b < BLOCKS_PER_PACKET` and channel index `i < SCANS_PER_BLOCK` the three bytes of the sample
are `data[3i]`, `data[3i+1]`, `data[3i+2]` of block `b`, at packet offsets
`100b + 4 + 3i + k` for `k < 3`, which is where the typed view reads them; these offsets are
below `1200` (the offset of the timestamp), distinct `(b, i, k)` have distinct offsets (so
distinct `(b, i)` occupy disjoint byte ranges), and the groups of a block cover each of its
`96` data bytes. -/
theorem channel_samples_in_bounds_and_disjoint :
    BLOCK_SIZE = cUInt16.size + cUInt16.size + BLOCK_DATA_SIZE ∧
    BLOCK_SIZE = 2 + 2 + BLOCK_DATA_SIZE ∧
    BLOCK_DATA_SIZE = SCANS_PER_BLOCK * RAW_SCAN_SIZE ∧ BLOCK_DATA_SIZE = 96 ∧
    (∀ b i k : Nat, b < BLOCKS_PER_PACKET → i < SCANS_PER_BLOCK → k < RAW_SCAN_SIZE →
      sampleByteIndex i k = 3 * i + k ∧ sampleByteIndex i k < BLOCK_DATA_SIZE ∧
      sampleOffset b i k = 100 * b + 4 + 3 * i + k ∧
      sampleOffset b i k < OFF_GPS_TIMESTAMP ∧ sampleOffset b i k < 1200) ∧
    (∀ b i k c j l : Nat, b < BLOCKS_PER_PACKET → i < SCANS_PER_BLOCK → k < RAW_SCAN_SIZE →
      c < BLOCKS_PER_PACKET → j < SCANS_PER_BLOCK → l < RAW_SCAN_SIZE →
      sampleOffset b i k = sampleOffset c j l → b = c ∧ i = j ∧ k = l) ∧
    (∀ n : Nat, n < BLOCK_DATA_SIZE →
      ∃ i k : Nat, i < SCANS_PER_BLOCK ∧ k < RAW_SCAN_SIZE ∧ sampleByteIndex i k = n) ∧
    (∀ (data : List Nat) (b i : Nat), b < BLOCKS_PER_PACKET → i < SCANS_PER_BLOCK →
      (UPacket.blockAt data b).sample i =
        ⟨byteAt data (sampleOffset b i 0) + 256 * byteAt data (sampleOffset b i 1),
         byteAt data (sampleOffset b i 2)⟩) := by
  obtain ⟨_, _, h4, h100, h96⟩ := rawBlock_layout_values
  obtain ⟨h0, h1200, _, _⟩ := packet_layout_values
  have hoff : ∀ b i k : Nat, sampleOffset b i k = 100 * b + 4 + 3 * i + k := by
    intro b i k
    unfold sampleOffset dataOffset sampleByteIndex
    rw [h0, h100, h4]
    unfold RAW_SCAN_SIZE
    omega
  refine ⟨by decide, by decide, rfl, by decide, ?_, ?_, ?_, ?_⟩
  · intro b i k hb hi hk
    rw [hoff, h1200, h96]
    unfold sampleByteIndex
    unfold BLOCKS_PER_PACKET at hb
    unfold SCANS_PER_BLOCK at hi
    unfold RAW_SCAN_SIZE at hk ⊢
    omega
  · intro b i k c j l hb hi hk hc hj hl h
    rw [hoff, hoff] at h
    unfold SCANS_PER_BLOCK at hi hj
    unfold RAW_SCAN_SIZE at hk hl
    have hbc : b = c := by
      rcases Nat.lt_trichotomy b c with hlt | heq | hgt
      · omega
      · exact heq
      · omega
    subst hbc
    have hij : i = j := by
      rcases Nat.lt_trichotomy i j with hlt | heq | hgt
      · omega
      · exact heq
      · omega
    subst hij
    exact ⟨rfl, rfl, by omega⟩
  · intro n hn
    rw [h96] at hn
    refine ⟨n / 3, n % 3, ?_, ?_, ?_⟩
    · unfold SCANS_PER_BLOCK; omega
    · unfold RAW_SCAN_SIZE; omega
    · unfold sampleByteIndex RAW_SCAN_SIZE; omega
  · intro data b i _ hi
    have hread : ∀ k : Nat, k < 3 →
        byteAt (UPacket.blockAt data b).data (sampleByteIndex i k) =
          byteAt data (sampleOffset b i k) := by
      intro k hk
      have hlt : sampleByteIndex i k < BLOCK_DATA_SIZE := by
        rw [h96]
        unfold sampleByteIndex RAW_SCAN_SIZE
        unfold SCANS_PER_BLOCK at hi
        omega
      unfold UPacket.blockAt RawBlock.ofBytes
      simp only
      rw [byteAt_take _ _ _ hlt, byteAt_drop, byteAt_drop]
      unfold sampleOffset dataOffset
      congr 1
      omega
    unfold RawBlock.sample RawDistance.raw_distance
    rw [readU16_cons_cons, hread 0 (by omega), hread 1 (by omega), hread 2 (by omega)]

/-- C8, instance: the last sample of the last block occupies packet offsets `1197`, `1198` and
`1199`, the last three bytes before the timestamp. -/
theorem channel_samples_in_bounds_and_disjoint_witness :
    sampleOffset 11 31 0 = 1197 ∧ sampleOffset 11 31 2 = 1199 ∧ sampleOffset 11 31 2 < 1200 :=
  ⟨(channel_samples_in_bounds_and_disjoint.2.2.2.2.1 11 31 0 (by decide) (by decide)
      (by decide)).2.2.1,
   (channel_samples_in_bounds_and_disjoint.2.2.2.2.1 11 31 2 (by decide) (by decide)
      (by decide)).2.2.1,
   (channel_samples_in_bounds_and_disjoint.2.2.2.2.1 11 31 2 (by decide) (by decide)
      (by decide)).2.2.2.2⟩

/-! ## Round trip between the two views of `UPacket` -/

/-- Writing a 16-bit value and reading it back. -/
theorem readU16_writeU16 (v : Nat) (h : v < 2 ^ 16) (l : List Nat) :
    readU16 (writeU16 v ++ l) 0 = v := by
  show v % 256 + 256 * (v / 256 % 256) = v
  omega

/-- Reading two bytes as a 16-bit value and writing it back. -/
theorem writeU16_readU16 (a b : Nat) (ha : a < 256) (hb : b < 256) :
    writeU16 (a + 256 * b) = [a, b] := by
  have h1 : (a + 256 * b) % 256 = a := by omega
  have h2 : (a + 256 * b) / 256 % 256 = b := by omega
  unfold writeU16
  rw [h1, h2]

/-- Writing a 32-bit value and reading it back. -/
theorem readU32_writeU32 (v : Nat) (h : v < 2 ^ 32) (l : List Nat) :
    readU32 (writeU32 v ++ l) 0 = v := by
  show v % 256 + 256 * (v / 256 % 256) + 65536 * (v / 65536 % 256) +
    16777216 * (v / 16777216 % 256) = v
  omega

/-- Reading four bytes as a 32-bit value and writing it back. -/
theorem writeU32_readU32 (a b c d : Nat) (ha : a < 256) (hb : b < 256) (hc : c < 256)
    (hd : d < 256) : writeU32 (a + 256 * b + 65536 * c + 16777216 * d) = [a, b, c, d] := by
  have h1 : (a + 256 * b + 65536 * c + 16777216 * d) % 256 = a := by omega
  have h2 : (a + 256 * b + 65536 * c + 16777216 * d) / 256 % 256 = b := by omega
  have h3 : (a + 256 * b + 65536 * c + 16777216 * d) / 65536 % 256 = c := by omega
  have h4 : (a + 256 * b + 65536 * c + 16777216 * d) / 16777216 % 256 = d := by omega
  unfold writeU32
  rw [h1, h2, h3, h4]

/-- The bytes of a well-formed block: `BLOCK_SIZE` of them. -/
theorem RawBlock.toBytes_length (b : RawBlock) (h : b.WF) : b.toBytes.length = 100 := by
  obtain ⟨_, _, hlen, _⟩ := h
  unfold RawBlock.toBytes writeU16
  simp only [List.length_append, List.length_cons, List.length_nil, hlen]
  decide

/-- The bytes written for a well-formed block are bytes. -/
theorem RawBlock.toBytes_lt (b : RawBlock) (h : b.WF) : ∀ x ∈ b.toBytes, x < 256 := by
  obtain ⟨_, _, _, hbytes⟩ := h
  intro x hx
  unfold RawBlock.toBytes writeU16 at hx
  simp only [List.mem_append, List.mem_cons, List.mem_singleton, List.not_mem_nil,
    or_false] at hx
  rcases hx with ((hx | hx) | (hx | hx)) | hx
  · omega
  · omega
  · omega
  · omega
  · exact hbytes x hx

/-- Reading back the typed view of a block from the bytes written for it, whatever follows. -/
theorem RawBlock.ofBytes_toBytes_append (b : RawBlock) (h : b.WF) (rest : List Nat) :
    RawBlock.ofBytes (b.toBytes ++ rest) = b := by
  obtain ⟨hid, hrot, hlen, _⟩ := h
  obtain ⟨h0, h2, h4, _, _⟩ := rawBlock_layout_values
  cases b with
  | mk id rot data =>
    simp only at hid hrot hlen
    unfold RawBlock.ofBytes
    rw [h0, h2, h4]
    have e1 : readU16 (RawBlock.toBytes ⟨id, rot, data⟩ ++ rest) 0 = id := by
      show id % 256 + 256 * (id / 256 % 256) = id
      omega
    have e2 : readU16 (RawBlock.toBytes ⟨id, rot, data⟩ ++ rest) 2 = rot := by
      show rot % 256 + 256 * (rot / 256 % 256) = rot
      omega
    have e3 : ((RawBlock.toBytes ⟨id, rot, data⟩ ++ rest).drop 4).take BLOCK_DATA_SIZE = data := by
      show (data ++ rest).take BLOCK_DATA_SIZE = data
      exact List.take_left' hlen
    rw [e1, e2, e3]

/-- The bytes of a list of well-formed blocks: `BLOCK_SIZE` for each block. -/
theorem blocks_bytes_length (bs : List RawBlock) (h : ∀ b ∈ bs, b.WF) :
    (bs.map RawBlock.toBytes).flatten.length = 100 * bs.length := by
  induction bs with
  | nil => rfl
  | cons b bs ih =>
    have hb := RawBlock.toBytes_length b (h b (List.mem_cons_self b bs))
    have hbs := ih (fun x hx => h x (List.mem_cons_of_mem b hx))
    simp only [List.map_cons, List.flatten_cons, List.length_append, List.length_cons, hb, hbs]
    ring

/-- Block `i` of the typed view over the bytes written for a list of well-formed blocks. -/
theorem ofBytes_drop_blocks_bytes (bs : List RawBlock) (tail : List Nat)
    (h : ∀ b ∈ bs, b.WF) (i : Nat) (hi : i < bs.length) :
    RawBlock.ofBytes (((bs.map RawBlock.toBytes).flatten ++ tail).drop (100 * i)) = bs[i] := by
  induction bs generalizing i with
  | nil => exact absurd hi (by simp)
  | cons b bs ih =>
    have hb := h b (List.mem_cons_self b bs)
    have hlen := RawBlock.toBytes_length b hb
    simp only [List.map_cons, List.flatten_cons, List.append_assoc]
    cases i with
    | zero =>
      simp only [Nat.mul_zero, List.drop_zero, List.getElem_cons_zero]
      exact RawBlock.ofBytes_toBytes_append b hb _
    | succ j =>
      have e : 100 * (j + 1) = b.toBytes.length + 100 * j := by omega
      rw [e, List.drop_append]
      simp only [List.getElem_cons_succ]
      exact ih (fun x hx => h x (List.mem_cons_of_mem b hx)) j (by simpa using hi)

/-- A byte read from a buffer of bytes is a byte. -/
theorem byteAt_lt (l : List Nat) (h : ∀ x ∈ l, x < 256) (i : Nat) : byteAt l i < 256 := by
  unfold byteAt
  rw [List.getD_eq_getElem?_getD]
  cases hi : l[i]? with
  | none => simp
  | some x => exact h x (List.getElem?_mem hi)

/-- A 32-bit read at an offset is a read at the start of the buffer past the offset. -/
theorem readU32_drop (l : List Nat) (n : Nat) : readU32 l n = readU32 (l.drop n) 0 := by
  unfold readU32
  simp only [byteAt_drop, Nat.add_zero, Nat.zero_add]

/-- The byte view of a well-formed packet is `PACKET_SIZE` bytes long. -/
theorem UPacket.data_length (p : RawPacket) (h : p.WF) :
    (UPacket.data p).length = PACKET_SIZE := by
  obtain ⟨hn, hblk, _, _, _⟩ := h
  unfold UPacket.data writeU32
  simp only [List.length_append, List.length_cons, List.length_nil,
    blocks_bytes_length p.blocks hblk, hn]
  decide

/-- What follows the blocks in the byte view of a well-formed packet. -/
theorem UPacket.data_drop_blocks (p : RawPacket) (h : p.WF) :
    (UPacket.data p).drop 1200 = writeU32 p.gps_timestamp ++ [p.status_type, p.status_value] := by
  obtain ⟨hn, hblk, _, _, _⟩ := h
  unfold UPacket.data
  rw [List.append_assoc]
  apply List.drop_left'
  rw [blocks_bytes_length p.blocks hblk, hn]
  decide

/-- Typed view of the byte view of a well-formed packet: the packet. -/
theorem UPacket.fields_data (p : RawPacket) (h : p.WF) :
    UPacket.fields (UPacket.data p) = p := by
  have hdrop := UPacket.data_drop_blocks p h
  obtain ⟨hn, hblk, hts, hst, hsv⟩ := h
  obtain ⟨h0, h1200, h1204, h1205⟩ := packet_layout_values
  have h100 : structSize rawBlockFields = 100 := rawBlock_layout_values.2.2.2.1
  have e1 : (List.range BLOCKS_PER_PACKET).map (UPacket.blockAt (UPacket.data p)) = p.blocks := by
    apply List.ext_getElem
    · rw [List.length_map, List.length_range, hn]
    · intro i h1 h2
      rw [List.getElem_map, List.getElem_range]
      unfold UPacket.blockAt
      rw [h0, h100]
      have e : 0 + i * 100 = 100 * i := by omega
      rw [e]
      unfold UPacket.data
      rw [List.append_assoc]
      exact ofBytes_drop_blocks_bytes p.blocks _ hblk i h2
  have e2 : readU32 (UPacket.data p) OFF_GPS_TIMESTAMP = p.gps_timestamp := by
    rw [h1200, readU32_drop, hdrop]
    exact readU32_writeU32 p.gps_timestamp hts _
  have e3 : byteAt (UPacket.data p) OFF_STATUS_TYPE = p.status_type := by
    have e : (1204 : Nat) = 1200 + 4 := rfl
    rw [h1204, e, ← byteAt_drop, hdrop]
    rfl
  have e4 : byteAt (UPacket.data p) OFF_STATUS_VALUE = p.status_value := by
    have e : (1205 : Nat) = 1200 + 5 := rfl
    rw [h1205, e, ← byteAt_drop, hdrop]
    rfl
  unfold UPacket.fields
  rw [e1, e2, e3, e4]

/-- Byte view of the typed view of a block: the first `BLOCK_SIZE` bytes of the buffer. -/
theorem RawBlock.toBytes_ofBytes (buf : List Nat) (hlen : 100 ≤ buf.length)
    (hb : ∀ x ∈ buf, x < 256) : (RawBlock.ofBytes buf).toBytes = buf.take 100 := by
  obtain ⟨h0, h2, h4, _, h96⟩ := rawBlock_layout_values
  match buf, hlen, hb with
  | a :: b :: c :: d :: rest, _, hb =>
    have ha : a < 256 := hb a (by simp)
    have hb2 : b < 256 := hb b (by simp)
    have hc : c < 256 := hb c (by simp)
    have hd : d < 256 := hb d (by simp)
    unfold RawBlock.toBytes RawBlock.ofBytes
    simp only
    rw [h0, h2, h4, h96]
    have e1 : readU16 (a :: b :: c :: d :: rest) 0 = a + 256 * b := rfl
    have e2 : readU16 (a :: b :: c :: d :: rest) 2 = c + 256 * d := rfl
    rw [e1, e2, writeU16_readU16 a b ha hb2, writeU16_readU16 c d hc hd]
    rfl
  | [], hlen, _ => exact absurd hlen (by simp)
  | [_], hlen, _ => exact absurd hlen (by simp)
  | [_, _], hlen, _ => exact absurd hlen (by simp)
  | [_, _, _], hlen, _ => exact absurd hlen (by simp)

/-- Consecutive chunks of `BLOCK_SIZE` bytes make up a prefix of the buffer. -/
theorem flatten_range_chunks (l : List Nat) (n : Nat) :
    ((List.range n).map (fun b => (l.drop (100 * b)).take 100)).flatten = l.take (100 * n) := by
  induction n with
  | zero => simp
  | succ n ih =>
    rw [List.range_succ, List.map_append, List.flatten_append, ih]
    have e : 100 * (n + 1) = 100 * n + 100 := by omega
    rw [e, List.take_add]
    simp

/-- The last six bytes of a buffer of `PACKET_SIZE` bytes. -/
theorem drop_blocks_eq (data : List Nat) (hlen : data.length = PACKET_SIZE) :
    data.drop 1200 =
      [byteAt data 1200, byteAt data 1201, byteAt data 1202, byteAt data 1203,
       byteAt data 1204, byteAt data 1205] := by
  unfold PACKET_SIZE at hlen
  have hget : ∀ i : Nat, (hi : i < data.length) → byteAt data i = data[i] := by
    intro i hi
    exact List.getD_eq_getElem data 0 hi
  apply List.ext_getElem
  · simp only [List.length_drop, hlen, List.length_cons, List.length_nil]
  · intro i h1 h2
    rw [List.getElem_drop]
    simp only [List.length_cons, List.length_nil] at h2
    have h6 : i < 6 := by omega
    interval_cases i
    · exact (hget 1200 (by omega)).symm
    · exact (hget 1201 (by omega)).symm
    · exact (hget 1202 (by omega)).symm
    · exact (hget 1203 (by omega)).symm
    · exact (hget 1204 (by omega)).symm
    · exact (hget 1205 (by omega)).symm

/-- Byte view of the typed view of a buffer of `PACKET_SIZE` bytes: the buffer. -/
theorem UPacket.data_fields (data : List Nat) (hlen : data.length = PACKET_SIZE)
    (hb : ∀ x ∈ data, x < 256) : UPacket.data (UPacket.fields data) = data := by
  obtain ⟨h0, h1200, h1204, h1205⟩ := packet_layout_values
  have h100 : structSize rawBlockFields = 100 := rawBlock_layout_values.2.2.2.1
  have hblocks : ((UPacket.fields data).blocks.map RawBlock.toBytes).flatten =
      data.take 1200 := by
    have e : (UPacket.fields data).blocks.map RawBlock.toBytes =
        (List.range 12).map (fun b => (data.drop (100 * b)).take 100) := by
      show ((List.range BLOCKS_PER_PACKET).map (UPacket.blockAt data)).map RawBlock.toBytes = _
      rw [List.map_map]
      apply List.map_congr_left
      intro b hbr
      have hb12 : b < 12 := List.mem_range.mp hbr
      show (UPacket.blockAt data b).toBytes = _
      unfold UPacket.blockAt
      rw [h0, h100]
      have e : 0 + b * 100 = 100 * b := by omega
      rw [e]
      apply RawBlock.toBytes_ofBytes
      · rw [List.length_drop, hlen]
        unfold PACKET_SIZE
        omega
      · intro x hx
        exact hb x (List.mem_of_mem_drop hx)
    rw [e, flatten_range_chunks]
  have hts : writeU32 (UPacket.fields data).gps_timestamp =
      [byteAt data 1200, byteAt data 1201, byteAt data 1202, byteAt data 1203] := by
    show writeU32 (readU32 data OFF_GPS_TIMESTAMP) = _
    rw [h1200]
    exact writeU32_readU32 _ _ _ _ (byteAt_lt data hb _) (byteAt_lt data hb _)
      (byteAt_lt data hb _) (byteAt_lt data hb _)
  have hst : (UPacket.fields data).status_type = byteAt data 1204 := by
    show byteAt data OFF_STATUS_TYPE = _
    rw [h1204]
  have hsv : (UPacket.fields data).status_value = byteAt data 1205 := by
    show byteAt data OFF_STATUS_VALUE = _
    rw [h1205]
  unfold UPacket.data
  rw [hblocks, hts, hst, hsv, List.append_assoc]
  have hd := drop_blocks_eq data hlen
  calc data.take 1200 ++ ([byteAt data 1200, byteAt data 1201, byteAt data 1202,
          byteAt data 1203] ++ [byteAt data 1204, byteAt data 1205])
      = data.take 1200 ++ data.drop 1200 := by rw [hd]; rfl
    _ = data := List.take_append_drop 1200 data

/-- The typed view of a buffer of `PACKET_SIZE` bytes is well formed. -/
theorem UPacket.fields_WF (data : List Nat) (hlen : data.length = PACKET_SIZE)
    (hb : ∀ x ∈ data, x < 256) : (UPacket.fields data).WF := by
  refine ⟨?_, ?_, ?_, byteAt_lt data hb _, byteAt_lt data hb _⟩
  · show ((List.range BLOCKS_PER_PACKET).map (UPacket.blockAt data)).length = _
    rw [List.length_map, List.length_range]
  · intro blk hblk
    have hmem : blk ∈ (List.range BLOCKS_PER_PACKET).map (UPacket.blockAt data) := hblk
    obtain ⟨b, hbr, rfl⟩ := List.mem_map.mp hmem
    have hb12 : b < BLOCKS_PER_PACKET := List.mem_range.mp hbr
    have hd : ∀ x ∈ data.drop (OFF_BLOCKS + b * structSize rawBlockFields), x < 256 :=
      fun x hx => hb x (List.mem_of_mem_drop hx)
    refine ⟨?_, ?_, blockAt_data_length data hlen b hb12, ?_⟩
    · have h1 := byteAt_lt _ hd OFF_LASER_BLOCK_ID
      have h2 := byteAt_lt _ hd (OFF_LASER_BLOCK_ID + 1)
      show byteAt _ OFF_LASER_BLOCK_ID + 256 * byteAt _ (OFF_LASER_BLOCK_ID + 1) < 2 ^ 16
      omega
    · have h1 := byteAt_lt _ hd OFF_ROTATION
      have h2 := byteAt_lt _ hd (OFF_ROTATION + 1)
      show byteAt _ OFF_ROTATION + 256 * byteAt _ (OFF_ROTATION + 1) < 2 ^ 16
      omega
    · intro x hx
      have hx2 : x ∈ ((data.drop (OFF_BLOCKS + b * structSize rawBlockFields)).drop
          OFF_DATA).take BLOCK_DATA_SIZE := hx
      exact hd x (List.mem_of_mem_drop (List.mem_of_mem_take hx2))
  · have h1 := byteAt_lt data hb OFF_GPS_TIMESTAMP
    have h2 := byteAt_lt data hb (OFF_GPS_TIMESTAMP + 1)
    have h3 := byteAt_lt data hb (OFF_GPS_TIMESTAMP + 2)
    have h4 := byteAt_lt data hb (OFF_GPS_TIMESTAMP + 3)
    show byteAt data OFF_GPS_TIMESTAMP + 256 * byteAt data (OFF_GPS_TIMESTAMP + 1) +
      65536 * byteAt data (OFF_GPS_TIMESTAMP + 2) +
      16777216 * byteAt data (OFF_GPS_TIMESTAMP + 3) < 2 ^ 32
    omega

/-- The byte view of a well-formed packet consists of bytes. -/
theorem UPacket.data_lt (p : RawPacket) (h : p.WF) : ∀ x ∈ UPacket.data p, x < 256 := by
  obtain ⟨_, hblk, _, hst, hsv⟩ := h
  intro x hx
  unfold UPacket.data writeU32 at hx
  simp only [List.mem_append, List.mem_cons, List.mem_singleton, List.not_mem_nil,
    or_false, List.mem_flatten, List.mem_map] at hx
  rcases hx with (⟨l, ⟨b, hb, rfl⟩, hxl⟩ | (hx | hx | hx | hx)) | (hx | hx)
  · exact RawBlock.toBytes_lt b (hblk b hb) x hxl
  · omega
  · omega
  · omega
  · omega
  · omega
  · omega

/-- The sample block is well formed. -/
theorem sampleBlock_WF : sampleBlock.WF := by
  refine ⟨?_, ?_, ?_, ?_⟩
  · show UPPER_BANK < 2 ^ 16
    unfold UPPER_BANK
    norm_num
  · show 35999 < 2 ^ 16
    norm_num
  · exact List.length_replicate _ _
  · intro x hx
    have hx2 : x ∈ List.replicate BLOCK_DATA_SIZE 7 := hx
    rw [(List.mem_replicate.mp hx2).2]
    norm_num

/-- The sample packet is well formed. -/
theorem samplePacket_WF : samplePacket.WF := by
  refine ⟨?_, ?_, ?_, ?_, ?_⟩
  · exact List.length_replicate _ _
  · intro b hb
    have hb2 : b ∈ List.replicate BLOCKS_PER_PACKET sampleBlock := hb
    rw [(List.mem_replicate.mp hb2).2]
    exact sampleBlock_WF
  · show 305419896 < 2 ^ 32
    norm_num
  · show 72 < 256
    norm_num
  · show 13 < 256
    norm_num

/-- The sample buffer is `PACKET_SIZE` bytes. -/
theorem sampleBuffer_bytes :
    sampleBuffer.length = PACKET_SIZE ∧ ∀ x ∈ sampleBuffer, x < 256 := by
  refine ⟨List.length_replicate _ _, ?_⟩
  intro x hx
  have hx2 : x ∈ List.replicate PACKET_SIZE 171 := hx
  rw [(List.mem_replicate.mp hx2).2]
  norm_num

/-- C3: round trip between the two views of `UPacket`. For every assignment of field values
within the ranges of the member types (twelve blocks, each with a 16-bit `laser_block_id`, a
16-bit `rotation` and 96 data bytes; a 32-bit `gps_timestamp`; two status bytes), writing the
fields into the data array with every multi-byte field little-endian gives `PACKET_SIZE`
bytes, and reading the fields back from those bytes returns the same packet, hence the same
bank ids, rotations, timestamp, status bytes and channel samples (raw distances and
intensities). Conversely every array of `PACKET_SIZE` bytes is the typed view of a well-formed
packet and is reproduced byte for byte by reading its fields and writing them back. The same
holds for the two views of `union RawDistance`. -/
theorem upacket_views_round_trip :
    (∀ p : RawPacket, p.WF →
      (UPacket.data p).length = PACKET_SIZE ∧ (∀ x ∈ UPacket.data p, x < 256) ∧
      UPacket.fields (UPacket.data p) = p ∧
      (UPacket.fields (UPacket.data p)).blocks.map RawBlock.laser_block_id =
        p.blocks.map RawBlock.laser_block_id ∧
      (UPacket.fields (UPacket.data p)).blocks.map RawBlock.rotation =
        p.blocks.map RawBlock.rotation ∧
      (UPacket.fields (UPacket.data p)).samples = p.samples) ∧
    (∀ data : List Nat, data.length = PACKET_SIZE → (∀ x ∈ data, x < 256) →
      (UPacket.fields data).WF ∧ UPacket.data (UPacket.fields data) = data) ∧
    (∀ d : Nat, d < 2 ^ 16 → RawDistance.raw_distance (RawDistance.bytes d) = d) ∧
    (∀ a b : Nat, a < 256 → b < 256 →
      RawDistance.bytes (RawDistance.raw_distance [a, b]) = [a, b]) := by
  refine ⟨?_, ?_, ?_, ?_⟩
  · intro p hp
    have h := UPacket.fields_data p hp
    refine ⟨UPacket.data_length p hp, UPacket.data_lt p hp, h, ?_, ?_, ?_⟩ <;> rw [h]
  · intro data hlen hb
    exact ⟨UPacket.fields_WF data hlen hb, UPacket.data_fields data hlen hb⟩
  · intro d hd
    have h := readU16_writeU16 d hd []
    rw [List.append_nil] at h
    exact h
  · intro a b ha hb
    exact writeU16_readU16 a b ha hb

/-- C3, instance: the sample packet is well formed and survives writing and reading back; the
sample buffer is `PACKET_SIZE` bytes and survives reading and writing back. -/
theorem upacket_views_round_trip_witness :
    samplePacket.WF ∧ UPacket.fields (UPacket.data samplePacket) = samplePacket ∧
    sampleBuffer.length = PACKET_SIZE ∧ (∀ x ∈ sampleBuffer, x < 256) ∧
    UPacket.data (UPacket.fields sampleBuffer) = sampleBuffer :=
  ⟨samplePacket_WF, (upacket_views_round_trip.1 samplePacket samplePacket_WF).2.2.1,
   sampleBuffer_bytes.1, sampleBuffer_bytes.2,
   (upacket_views_round_trip.2.1 sampleBuffer sampleBuffer_bytes.1 sampleBuffer_bytes.2).2⟩

end Surestar
